import Mathlib

/-!
Verification development for the VoiceScript transcription service.

The service is a filesystem-backed job queue shared by a frontend process
(main.py) and a worker process (worker.py), with helper modules under src/.
This file gives shallow embeddings of the parts of the code relevant to the
stated properties — the upload-name disambiguation loop, the worker's inbox
scan and stuck-job detection, the heartbeat lifecycle, the frontend progress
listener, the upload/delete pair, the download preparation step and the
janitor — and proves or refutes each property against them.
-/

namespace VoiceScript

/-! ## Definitions -/

/-- Last index of character `c` in `l`, if any. Used to model the last-dot /
last-separator searches of CPython's `os.path.splitext` and
`os.path.basename`. -/
def rfindChar (l : List Char) (c : Char) : Option Nat :=
  (List.range l.length).foldl
    (fun acc i => if l.getD i ' ' = c then some i else acc) none

/-- Model of `os.path.splitext` (CPython `genericpath._splitext` with `sep = '/'`,
`extsep = '.'`): split off the extension at the last dot, unless every
character between the last path separator and that dot is itself a dot
(leading-dot names such as `.bashrc` have no extension). -/
def splitext (s : String) : String × String :=
  let l := s.toList
  let sepIdx : Int := match rfindChar l '/' with | some i => (i : Int) | none => -1
  let dotIdx : Int := match rfindChar l '.' with | some i => (i : Int) | none => -1
  if sepIdx < dotIdx then
    let nameStart := (sepIdx + 1).toNat
    let d := dotIdx.toNat
    if ((l.drop nameStart).take (d - nameStart)).any (fun ch => ch ≠ '.') then
      (⟨l.take d⟩, ⟨l.drop d⟩)
    else (s, "")
  else (s, "")

/-- The `i`-th disambiguated candidate name `f"{name}_{i}{ext}"` built by
`handle_upload` (main.py:200-203) from the original upload name. -/
def variantOf (orig : String) (i : Nat) : String :=
  let p := splitext orig
  p.1 ++ "_" ++ toString i ++ p.2

/-- The disambiguation loop of `handle_upload` (main.py:198-208).
`fuel` counts the remaining iterations of `for i in range(1, 10001)`, `i` is
the current loop index and `cur` the current candidate name; `ex` tells which
names exist in the user's inbox (`isfile`).  Returning `none` models the
`for`-`else` rejection branch that notifies
"Zu viele Dateien mit dem gleichen Namen" and stores nothing. -/
def collideGo (ex : String → Bool) (orig : String) : Nat → Nat → String → Option String
  | 0, _, _ => none
  | fuel + 1, i, cur =>
    if ex cur then collideGo ex orig fuel (i + 1) (variantOf orig i) else some cur

/-- The name `handle_upload` stores for upload `orig` against inbox contents
`ex`; `none` when the upload is rejected (main.py:198-208). -/
def uploadStoredName (ex : String → Bool) (orig : String) : Option String :=
  collideGo ex orig 10000 1 orig

/-- The candidate name held by the loop after `j` collisions: the original
name for `j = 0`, then `variantOf orig j`. -/
def curAt (orig : String) : Nat → String
  | 0 => orig
  | j + 1 => variantOf orig (j + 1)

/-- Model of `os.path.basename` for POSIX paths: everything after the last `/`. -/
def basenameOf (s : String) : String :=
  match rfindChar s.toList '/' with
  | some i => ⟨s.toList.drop (i + 1)⟩
  | none => s

/-- A character matched by Python's regex class `[\w\-\.]` as used in
`sanitize_filename` (ASCII fragment: `\w` is `[A-Za-z0-9_]` on the ASCII
inputs considered here). -/
def isKeptChar (c : Char) : Bool :=
  c.isAlpha || c.isDigit || c = '_' || c = '-' || c = '.'

/-- Model of `sanitize_filename` from src/security.py:21-42: strip the path component,
replace every character outside `[\w\-\.]` by `_`, and prepend `f` when the
result starts with a dot. -/
def sanitize_filename (filename : String) : String :=
  let base := basenameOf filename
  let l := base.toList.map (fun c => if isKeptChar c then c else '_')
  match l with
  | '.' :: _ => ⟨'f' :: l⟩
  | _ => ⟨l⟩

/-- C3, as stated by the spec: in an inbox holding exactly
`x.ext, x_1.ext, …, x_(k-1).ext` with `k ≤ 10000`, the upload of `x.ext` is
stored as `x_k.ext`.  The inbox contents are given through the `isfile`
oracle `ex`; the hypotheses say exactly which of the names the loop can
query exist. -/
def uploadCollisionClaim : Prop :=
  ∀ (ex : String → Bool) (orig : String) (k : Nat),
    1 ≤ k → k ≤ 10000 →
    ex orig = true →
    (∀ j, j < k → 1 ≤ j → ex (variantOf orig j) = true) →
    ex (variantOf orig k) = false →
    uploadStoredName ex orig = some (variantOf orig k)

/-- The inbox used to refute C3: every name exists except `x_10000.ext`
(so in particular `x.ext` and `x_1.ext` … `x_9999.ext` all exist). -/
def exInbox10000 : String → Bool := fun s => !(s == variantOf "x.ext" 10000)

/-- A concrete inbox for the C3 witness: `x.ext` and `x_1.ext` exist. -/
def exInbox2 : String → Bool := fun s => s == "x.ext" || s == "x_1.ext"

/-- C6, as stated by the spec: the name stored for an upload is the result of
running the collision disambiguation on the *sanitized* original name. -/
def uploadSanitizedClaim : Prop :=
  ∀ (ex : String → Bool) (orig : String),
    uploadStoredName ex orig = uploadStoredName ex (sanitize_filename orig)

/-- Model of `str.endswith`, on character lists. -/
def strEndsWith (s suffix : String) : Bool := suffix.toList.isSuffixOf s.toList

/-- The filesystem tree of one user, restricted to the pieces `handle_upload`
and `delete_file` touch.  `media n` is the existence of `in/<u>/<n>` for a
non-config name `n`; `language`/`hotwords` are the contents of
`in/<u>/language.txt` and `in/<u>/hotwords.txt` (`none` = absent);
`errFile n`/`errTxt n` are `error/<u>/<n>` and `error/<u>/<n>.txt`;
`outFile n` is `out/<u>/<n>` for a full outbox filename `n`;
`marker n` is `in/<u>/<n>.processing`; `worker` lists the heartbeat
filenames under `worker/<u>/`. -/
structure UserFS where
  media : String → Bool
  language : Option String
  hotwords : Option String
  errFile : String → Bool
  errTxt : String → Bool
  outFile : String → Bool
  marker : String → Bool
  worker : List String

/-- The `isfile(join(in_path, file_name))` oracle seen by the disambiguation
loop: a name exists in the inbox if it is a stored media file or one of the
two config files that are present. -/
def inboxHas (st : UserFS) (n : String) : Bool :=
  st.media n || (n == "language.txt" && st.language.isSome)
    || (n == "hotwords.txt" && st.hotwords.isSome)

/-- Model of `handle_upload` (main.py:176-231): clean up any error entries for the
name, disambiguate it against the inbox, then write `hotwords.txt` (or
delete it when the vocabulary is empty), write `language.txt` (defaulting to
`"de"`), and store the upload.  The Boolean is `false` when the upload was
rejected by the collision loop, in which case nothing past the error cleanup
has happened. -/
def handleUpload (st : UserFS) (name vocab lang : String) : UserFS × Bool :=
  let st1 : UserFS :=
    { st with
      errFile := fun n => if n == name then false else st.errFile n
      errTxt := fun n => if n == name then false else st.errTxt n }
  match uploadStoredName (inboxHas st1) name with
  | none => (st1, false)
  | some stored =>
    let st2 : UserFS :=
      { st1 with
        hotwords := if vocab == "" then none else some vocab
        language := some (if lang == "" then "de" else lang) }
    ({ st2 with media := fun n => if n == stored then true else st2.media n }, true)

/-- The outbox suffixes deleted by `delete_file` (main.py:584). -/
def outSuffixes : List String := ["", ".txt", ".html", ".mp4", ".srt", ".htmlupdate", ".htmlfinal"]

/-- Model of `delete_file` (main.py:578-613): remove the inbox entry, the error entry
and its `.txt`, the outbox artifacts `name + suffix`, the `.processing`
marker, and every heartbeat ending in `_<name>`. -/
def deleteFile (st : UserFS) (name : String) : UserFS where
  media := fun n => if n == name then false else st.media n
  language := if name == "language.txt" then none else st.language
  hotwords := if name == "hotwords.txt" then none else st.hotwords
  errFile := fun n => if n == name then false else st.errFile n
  errTxt := fun n => if n == name then false else st.errTxt n
  outFile := fun n => if outSuffixes.any (fun suf => n == name ++ suf) then false else st.outFile n
  marker := fun n => if n == name then false else st.marker n
  worker := st.worker.filter (fun f => !(strEndsWith f ("_" ++ name)))

/-- A name is fresh for a user when no file derived from it exists anywhere
in the user's tree and it is not one of the two config names. -/
def freshName (st : UserFS) (name : String) : Prop :=
  st.media name = false ∧ st.errFile name = false ∧ st.errTxt name = false ∧
  (∀ suf ∈ outSuffixes, st.outFile (name ++ suf) = false) ∧
  st.marker name = false ∧
  (∀ f ∈ st.worker, strEndsWith f ("_" ++ name) = false) ∧
  name ≠ "language.txt" ∧ name ≠ "hotwords.txt"

/-- C7, as stated by the spec: uploading a fresh name and then deleting it
restores the user's tree exactly (modulo directory creation, which is not
part of the state). -/
def uploadDeleteClaim : Prop :=
  ∀ (st : UserFS) (name vocab lang : String),
    freshName st name →
    (handleUpload st name vocab lang).2 = true →
    deleteFile (handleUpload st name vocab lang).1 name = st

/-- The empty user tree. -/
def emptyUserFS : UserFS :=
  ⟨fun _ => false, none, none, fun _ => false, fun _ => false, fun _ => false,
    fun _ => false, []⟩

/-- The files of one queued job as seen by the worker's scan:
the inbox file, its error-directory copy, the diagnostic text, and the
`.processing` marker (`some (some start)`: marker with a parseable
acquisition timestamp; `some none`: marker with unreadable contents;
`none`: no marker). -/
structure JobFiles where
  inFile : Bool
  errFile : Bool
  errTxt : Option String
  marker : Option (Option Int)
deriving DecidableEq

/-- The diagnostic text written for a stuck job (worker.py:88). -/
def stuckText : String := "Verarbeitung fehlgeschlagen oder steckengeblieben"

/-- Model of `report_error` (worker.py:105-142) on its happy path: create the `.txt`
diagnostic, move the input into the error directory, remove the marker. -/
def reportErrorFS (_st : JobFiles) (text : String) : JobFiles :=
  { inFile := false, errFile := true, errTxt := some text, marker := none }

/-- Model of `should_process_file` (worker.py:61-103) together with the effects it
triggers, for a job whose outbox HTML existence is `htmlExists`:
returns the updated job files and whether the scan will process the file.
A parseable marker is declared stuck only when `now - start > 600`
(worker.py:81); an unreadable marker is deleted and the file is processed
again (worker.py:93-101). -/
def scanStep (st : JobFiles) (htmlExists : Bool) (now : Int) : JobFiles × Bool :=
  if htmlExists then (st, false)
  else
    match st.marker with
    | some (some start) =>
      if now - start > 600 then (reportErrorFS st stuckText, false) else (st, false)
    | some none => ({ st with marker := none }, true)
    | none => (st, true)

/-- C4, as stated by the spec: a marker of age at least 600 seconds makes the
scan move the file to the error directory with the stuck diagnostic and
remove the marker, without transcribing it. -/
def stuckThresholdClaim : Prop :=
  ∀ (st : JobFiles) (start now : Int),
    st.marker = some (some start) → now - start ≥ 600 →
    scanStep st false now = (reportErrorFS st stuckText, false)

/-- What one heartbeat check of `listen` reports. -/
inductive ListenOutcome where
  | staleRemoved : ListenOutcome
  | report (postProcessing : Bool) (progress : ℚ) (remainingSecs : ℤ) : ListenOutcome
deriving DecidableEq

/-- The progress computation of `listen` (main.py:649):
`min(0.975, (time.time() - start) / estimated_time)`.  The division is by
the raw decoded estimate; `none` models the `ZeroDivisionError` Python
raises when the estimate is `0`. -/
def listenProgress (estimate start now : ℚ) : Option ℚ :=
  if estimate = 0 then none else some (min (39/40 : ℚ) ((now - start) / estimate))

/-- The remaining-time computation of `listen` (main.py:650):
`round(max(1, estimated_time - (time.time() - start)))`. -/
def listenRemaining (estimate start now : ℚ) : ℤ :=
  round (max 1 (estimate - (now - start)))

/-- One heartbeat check of `listen` (main.py:640-680) for a heartbeat
decoding to `(estimate, start)`: compute the progress (before ever looking
at the inbox), then report post-processing when it exceeds 0.95, otherwise
report the remaining time; a heartbeat whose inbox file is gone is deleted.
`none` models the listener dying on the `ZeroDivisionError`. -/
def listenOutcome (estimate start now : ℚ) (inboxExists : Bool) : Option ListenOutcome :=
  match listenProgress estimate start now with
  | none => none
  | some p =>
    if inboxExists then
      some (.report (p > 19/20) p (listenRemaining estimate start now))
    else some .staleRemoved

/-- Modelled from the spec for comparison with the code:
`progress = clamp((now - start) / max(1, estimate), 0, 0.975)`. -/
def specProgress (estimate start now : ℚ) : ℚ :=
  max 0 (min (39/40) ((now - start) / max 1 estimate))

/-- Modelled from the spec for comparison with the code:
`remaining = round(max(1, estimate - (now - start)))`. -/
def specRemaining (estimate start now : ℚ) : ℤ :=
  round (max 1 (estimate - (now - start)))

/-- C5, as stated by the spec: for every decoded heartbeat whose inbox file
exists, the listener reports the clamped spec progress (well-defined even
for estimate 0) and the spec remaining time, choosing post-processing
exactly when the progress exceeds 0.95. -/
def progressListenerClaim : Prop :=
  ∀ estimate start now : ℚ,
    listenOutcome estimate start now true
      = some (.report (specProgress estimate start now > 19/20)
          (specProgress estimate start now) (specRemaining estimate start now))

/-- State of one frontend user's `worker/<user>/` directory: the heartbeat
files in it and whether the directory itself exists.  After startup only
the root `data/worker/` exists (worker.py:366-367, main.py:1275-1276); no
reachable code path creates a per-user worker directory: the `makedirs` at
worker.py:201 sits after the estimate call that always raises (see
`WStep.singleFileJob`), and `inspect_docker_container` (main.py:944-963),
the only other creator, has no caller. -/
structure WorkerDirState where
  heartbeats : List String
  dirExists : Bool
deriving DecidableEq

/-- One worker iteration or frontend tick, restricted to its effect on
`worker/<user>/`, as the staged source actually executes it:
* `singleFileJob` — `transcribe_file` first removes the whole
  `worker/<user>` tree (worker.py:172-179); `time_estimate` is an
  `async def` (src/util.py:68) called without `await`, so the tuple unpack
  at worker.py:189 raises `TypeError` (a coroutine object cannot be
  unpacked), the handler at worker.py:194-197 reports the error and
  returns, and the heartbeat write at worker.py:203-207 is never reached;
* `zipJobTracks` — for a zip with at least one extracted file the same
  unawaited call raises at worker.py:455, caught at worker.py:510-518,
  which reports the error and continues without touching `worker/<user>`;
* `zipJobNoTracks` — a zip with no extracted files skips the estimate loop
  and reaches the heartbeat `open` at worker.py:458-466, which succeeds
  only when `worker/<user>/` exists; otherwise it raises
  `FileNotFoundError`, caught at worker.py:510, leaving the state as is;
* `staleRemove` — the frontend deletes a heartbeat whose inbox file is
  gone (main.py:679-680). -/
inductive WStep : WorkerDirState → WorkerDirState → Prop
  | singleFileJob (s : WorkerDirState) : WStep s ⟨[], false⟩
  | zipJobTracks (s : WorkerDirState) : WStep s s
  | zipJobNoTracks (s : WorkerDirState) (name : String) :
      WStep s (if s.dirExists then ⟨name :: s.heartbeats, true⟩ else s)
  | staleRemove (s : WorkerDirState) (name : String) :
      WStep s ⟨s.heartbeats.erase name, s.dirExists⟩

/-- States reachable from the post-startup tree, in which `data/worker/`
exists but no per-user worker directory and no heartbeat does. -/
def ReachableW (s : WorkerDirState) : Prop :=
  Relation.ReflTransGen WStep ⟨[], false⟩ s

/-- One regular file under `data/in`, with its user directory, basename and
modification time. -/
structure InEntry where
  user : String
  name : String
  mtime : Nat
deriving DecidableEq

/-- The path of an inbox entry relative to the scanned folder.  All scanned
paths share the prefix `join(ROOT, "data", "in") + "/"`, so comparing these
relative paths orders them exactly like the absolute ones. -/
def entryPath (e : InEntry) : List Char := (e.user ++ "/" ++ e.name).toList

/-- The sort key of `sorted(zip(times, matches))` (worker.py:153): pairs
`(mtime, path)` compared lexicographically, i.e. by mtime with ties broken
by path order. -/
def keyLe (a b : InEntry) : Prop :=
  a.mtime < b.mtime ∨ (a.mtime = b.mtime ∧ entryPath a ≤ entryPath b)

instance : DecidableRel keyLe := fun a b => by
  unfold keyLe; infer_instance

instance : IsTotal InEntry keyLe where
  total a b := by
    rcases Nat.lt_trichotomy a.mtime b.mtime with h | h | h
    · exact Or.inl (Or.inl h)
    · rcases le_total (entryPath a) (entryPath b) with h2 | h2
      · exact Or.inl (Or.inr ⟨h, h2⟩)
      · exact Or.inr (Or.inr ⟨h.symm, h2⟩)
    · exact Or.inr (Or.inl h)

instance : IsTrans InEntry keyLe where
  trans a b c hab hbc := by
    rcases hab with h | ⟨he, hle⟩
    · rcases hbc with h2 | ⟨he2, _⟩
      · exact Or.inl (lt_trans h h2)
      · exact Or.inl (he2 ▸ h)
    · rcases hbc with h2 | ⟨he2, hle2⟩
      · exact Or.inl (he ▸ h2)
      · exact Or.inr ⟨he.trans he2, le_trans hle hle2⟩

/-- Model of the filter `fnmatch.filter(filenames, "*.*")` (worker.py:149): it keeps exactly the basenames that
contain a dot. -/
def hasDot (n : String) : Bool := n.toList.contains '.'

/-- Model of `oldest_files` (worker.py:145-153): collect the regular files under
`data/in` whose basename matches `*.*` and sort them by
`(mtime, path)`. -/
def oldestFiles (entries : List InEntry) : List InEntry :=
  List.insertionSort keyLe (entries.filter (fun e => hasDot e.name))

/-- A snapshot of the filesystem state consulted by one scan of the worker
loop: the inbox files, the outbox-HTML oracle, the `.processing` markers
(`some (some start)` parseable, `some none` unreadable, `none` absent) and
the current time. -/
structure ScanFS where
  entries : List InEntry
  outHtml : String → String → Bool
  marker : String → String → Option (Option Int)
  now : Int

/-- The boolean value of `should_process_file` (worker.py:61-103) for an
inbox file: skip when the outbox HTML exists or a parseable marker exists
(live or stuck); an unreadable marker is cleaned up and the file is
processed. -/
def shouldProcessB (fs : ScanFS) (e : InEntry) : Bool :=
  if fs.outHtml e.user (e.name ++ ".html") then false
  else
    match fs.marker e.user e.name with
    | some (some _) => false
    | some none => true
    | none => true

/-- The per-file filter of the worker's main loop (worker.py:392-406):
drop the two config files and any file `should_process_file` rejects.
There is no check that the name lacks a `.processing` suffix. -/
def queueFilter (fs : ScanFS) (e : InEntry) : Bool :=
  !(e.name == "hotwords.txt") && !(e.name == "language.txt") && shouldProcessB fs e

/-- The queue the worker builds in one scan (worker.py:389-406). -/
def actualQueue (fs : ScanFS) : List InEntry :=
  (oldestFiles fs.entries).filter (queueFilter fs)

/-- The job the worker processes next: `actual_queue[0]` (worker.py:419). -/
def nextJob (fs : ScanFS) : Option InEntry := (actualQueue fs).head?

/-- Membership in the scanned-and-filtered queue, as a predicate on the
snapshot: basename contains a dot and passes the loop filter. -/
def queueCandidate (fs : ScanFS) (e : InEntry) : Bool :=
  hasDot e.name && queueFilter fs e

/-- Eligibility as the claim states it: a regular inbox file that is not a
config file, has no `.processing` suffix, no live `.processing` sibling and
no outbox HTML. -/
def eligibleSpec (fs : ScanFS) (e : InEntry) : Bool :=
  !(e.name == "hotwords.txt") && !(e.name == "language.txt") &&
  !(strEndsWith e.name ".processing") &&
  !((fs.marker e.user e.name).isSome) &&
  !(fs.outHtml e.user (e.name ++ ".html"))

/-- C1, as stated by the spec: whenever the scan finds an eligible file, the
job processed next is the eligible file that is least in mtime order with
path tie-break. -/
def globalFifoClaim : Prop :=
  ∀ fs : ScanFS,
    (∃ e ∈ oldestFiles fs.entries, eligibleSpec fs e = true) →
    ∃ e, nextJob fs = some e ∧ eligibleSpec fs e = true ∧
      ∀ e' ∈ fs.entries, eligibleSpec fs e' = true → keyLe e e'

/-- The scan snapshot refuting C1: `a.mp3` was acquired at time 1000 (live
marker, current time 1100), its marker file `a.mp3.processing` has mtime 10,
and the only eligible file `b.wav` has mtime 20. -/
def fsCex : ScanFS where
  entries := [⟨"u", "a.mp3", 5⟩, ⟨"u", "a.mp3.processing", 10⟩, ⟨"u", "b.wav", 20⟩]
  outHtml := fun _ _ => false
  marker := fun u n => if u == "u" && n == "a.mp3" then some (some 1000) else none
  now := 1100

/-- A snapshot on which the pure model agrees with the code's behaviour:
no stuck markers (their promotion would move files mid-scan) and no
unreadable markers (their cleanup would delete marker files mid-scan). -/
def noBadMarkers (fs : ScanFS) : Prop :=
  (∀ u n start, fs.marker u n = some (some start) → fs.now - start ≤ 600) ∧
  (∀ u n, fs.marker u n ≠ some none)

/-- The snapshot for the C1 witness: two users, no markers, no outputs. -/
def fsWitness : ScanFS where
  entries := [⟨"u", "a.mp3", 5⟩, ⟨"v", "b.wav", 7⟩]
  outHtml := fun _ _ => false
  marker := fun _ _ => none
  now := 0

/-- First index at which `sub` occurs in the remaining characters, counting
from `i`. -/
def findSubAux (sub : List Char) : List Char → Nat → Option Nat
  | [], i => if sub.isEmpty then some i else none
  | c :: t, i => if sub.isPrefixOf (c :: t) then some i else findSubAux sub t (i + 1)

/-- Python `str.find`: index of the first occurrence of `sub` in `s`, `-1`
when absent. -/
def pyFind (s sub : String) : Int :=
  match findSubAux sub.toList s.toList 0 with
  | some i => (i : Int)
  | none => -1

/-- Python membership test `sub in s`. -/
def pyContainsSub (s sub : String) : Bool := decide (0 ≤ pyFind s sub)

/-- Python slice `s[:j]` (negative indices wrap, then clamp). -/
def pySliceTo (s : String) (j : Int) : String :=
  let n : Int := (s.toList.length : Int)
  let j1 := if j < 0 then j + n else j
  let j2 := max 0 (min j1 n)
  ⟨s.toList.take j2.toNat⟩

/-- Python slice `s[i:]` (negative indices wrap, then clamp). -/
def pySliceFrom (s : String) (i : Int) : String :=
  let n : Int := (s.toList.length : Int)
  let i1 := if i < 0 then i + n else i
  let i2 := max 0 (min i1 n)
  ⟨s.toList.drop i2.toNat⟩

/-- The `.htmlupdate` splice of `prepare_download_sync` (main.py:345-356):
`content[:content.find("</nav>") + 6] + new + content[content.find("var fileName = "):]`. -/
def spliceUpdate (content newContent : String) : String :=
  pySliceTo content (pyFind content "</nav>" + 6) ++ newContent
    ++ pySliceFrom content (pyFind content "var fileName = ")

/-- The viewer placeholder replaced during download prep (main.py:358-361). -/
def viewerDivText : String :=
  "<div>Bitte den Editor herunterladen, um den Viewer zu erstellen.</div>"

/-- The viewer link substituted for the placeholder (main.py:358-361). -/
def viewerLinkText : String :=
  "<a href=\"#\" id=\"viewer-link\" onclick=\"viewerClick()\" class=\"btn btn-primary\">Viewer erstellen</a>"

/-- The base64 media block spliced over `</script>` (main.py:367-388),
parameterised by the base64 text of the media file. -/
def videoContentBlock (b64 : String) : String :=
  "\nvar base64str = \"" ++ b64 ++
    "\";\nvar binary = atob(base64str);\nvar len = binary.length;\nvar buffer = new ArrayBuffer(len);\nvar view = new Uint8Array(buffer);\nfor (var i = 0; i < len; i++) \x7b\n    view[i] = binary.charCodeAt(i);\n\x7d\n\nvar blob = new Blob([view], \x7b type: \"video/MP4\" \x7d);\nvar url = URL.createObjectURL(blob);\n\nvar video = document.getElementById(\"player\");\n\nsetTimeout(function() \x7b\n  video.pause();\n  video.setAttribute(\x27src\x27, url);\n\x7d, 100);\n</script>\n"

/-- The files of one completed job touched by download preparation:
the editor artifact `<file>.html`, the pending edit `<file>.htmlupdate`,
the normalized media `<file>.mp4` (as raw bytes) and the prepared
`<file>.htmlfinal`. -/
structure DlState where
  html : String
  update : Option String
  mp4 : String
  final : Option String
deriving DecidableEq

/-- Model of `prepare_download_sync` (main.py:336-395), with the base64 encoder as a
parameter: splice a pending update into the `.html` (persisting it and
deleting the update file), swap the viewer placeholder for the link, embed
the media as a base64 block over every `</script>` occurrence unless a
`var base64str = ` block is already present, and write the result as
`.htmlfinal`. -/
def prepareDownloadSync (b64 : String → String) (st : DlState) : DlState :=
  let content1 :=
    match st.update with
    | some u => spliceUpdate st.html u
    | none => st.html
  let content2 := content1.replace viewerDivText viewerLinkText
  let content3 :=
    if pyContainsSub content2 "var base64str = " then content2
    else content2.replace "</script>" (videoContentBlock (b64 st.mp4))
  { html := content1, update := none, mp4 := st.mp4, final := some content3 }

/-- The four per-user roots the janitor scans, in the order of `base_dirs`
(cleanup.py:26-31). -/
inductive JRoot where
  | rin | rout | rerr | rwork
deriving DecidableEq

/-- Order of `base_dirs`: `in`, `out`, `error`, `worker`. -/
def rootOrder : List JRoot := [.rin, .rout, .rerr, .rwork]

/-- A snapshot of the tree the janitor scans: per root, the listed user
entries, whether each is a directory, the mtimes of the files below it, and
the directory's own mtime. -/
structure JanFS where
  users : JRoot → List String
  isDir : JRoot → String → Bool
  fileTimes : JRoot → String → List Nat
  dirTime : JRoot → String → Nat

/-- The activity time the janitor computes for a user from one root only
(cleanup.py:57-70): the max file mtime under that root's user directory,
falling back to the directory mtime when it is 0. -/
def latestTime (fs : JanFS) (r : JRoot) (u : String) : Nat :=
  let t := (fs.fileTimes r u).foldl max 0
  if t = 0 then fs.dirTime r u else t

/-- The scan of one root's user listing (cleanup.py:47-87), threading the
`processed_users` set and the removed list. -/
def janScanUsers (fs : JanFS) (thr : Int) (r : JRoot) :
    List String → List String × List String → List String × List String
  | [], acc => acc
  | u :: rest, (proc, rem) =>
    if proc.contains u || u == "local" then janScanUsers fs thr r rest (proc, rem)
    else if !(fs.isDir r u) then janScanUsers fs thr r rest (proc, rem)
    else if (latestTime fs r u : Int) < thr then
      janScanUsers fs thr r rest (u :: proc, u :: rem)
    else janScanUsers fs thr r rest (u :: proc, rem)

/-- The users whose trees one janitor sweep removes (cleanup.py:13-91);
the threshold is `now - 7 * 86400` (cleanup.py:34-35). -/
def cleanupRemoved (fs : JanFS) (now : Int) : List String :=
  (rootOrder.foldl (fun acc r => janScanUsers fs (now - 7 * 86400) r (fs.users r) acc)
    ([], [])).2

/-- Modelled from the spec for comparison with the code: the most recent
file mtime of the user across all four roots. -/
def fourRootLatest (fs : JanFS) (u : String) : Nat :=
  (rootOrder.map (fun r => (fs.fileTimes r u).foldl max 0)).foldl max 0

/-- C9, as stated by the spec: a user's trees are removed only when the most
recent file mtime across all four roots is more than 7 days old, and `local`
is never removed. -/
def janitorClaim : Prop :=
  ∀ (fs : JanFS) (now : Int) (u : String), u ∈ cleanupRemoved fs now →
    u ≠ "local" ∧ (fourRootLatest fs u : Int) < now - 7 * 86400

/-- The janitor snapshot refuting C9: user `u` has an 8-day-old file under
`in/` but a file modified right now under `out/`. -/
def fsJanCex : JanFS where
  users := fun r => match r with | .rin => ["u"] | .rout => ["u"] | _ => []
  isDir := fun _ u => u == "u"
  fileTimes := fun r u =>
    if u == "u" then (match r with | .rin => [100] | .rout => [1000000] | _ => []) else []
  dirTime := fun _ _ => 0

/-- The janitor snapshot for the C9 witness: one genuinely idle user `v`. -/
def fsJanW : JanFS where
  users := fun r => match r with | .rin => ["v"] | _ => []
  isDir := fun _ u => u == "v"
  fileTimes := fun r u =>
    if u == "v" then (match r with | .rin => [1] | _ => []) else []
  dirTime := fun _ _ => 0

/-! ## Theorems -/

example : splitext "x.ext" = ("x", ".ext") := by decide

example : splitext "archive.tar.gz" = ("archive.tar", ".gz") := by decide

example : splitext ".bashrc" = (".bashrc", "") := by decide

example : variantOf "x.ext" 3 = "x_3.ext" := by decide

example : uploadStoredName (fun _ => false) "x.ext" = some "x.ext" := by decide

example : uploadStoredName (fun s => s == "x.ext") "x.ext" = some "x_1.ext" := by decide

example : sanitize_filename "a b.mp3" = "a_b.mp3" := by decide

example : sanitize_filename "../../etc/passwd" = "passwd" := by decide

example : sanitize_filename ".hidden" = "f.hidden" := by decide

theorem collideGo_of_ex_true {ex : String → Bool} {orig : String} {f i : Nat} {cur : String}
    (h : ex cur = true) :
    collideGo ex orig (f + 1) i cur = collideGo ex orig f (i + 1) (variantOf orig i) := by
  simp [collideGo, h]

theorem collideGo_of_ex_false {ex : String → Bool} {orig : String} {f i : Nat} {cur : String}
    (h : ex cur = false) :
    collideGo ex orig (f + 1) i cur = some cur := by
  simp [collideGo, h]

/-- If the loop's candidate names exist for the first `k` steps and the
`k`-th variant is free, the loop stops there and stores `curAt orig k`. -/
theorem collideGo_stops {ex : String → Bool} {orig : String} {k : Nat}
    (H : ∀ j, j < k → ex (curAt orig j) = true)
    (Hk : ex (curAt orig k) = false) :
    ∀ n j f, j + n = k → n < f →
      collideGo ex orig f (j + 1) (curAt orig j) = some (curAt orig k) := by
  intro n
  induction n with
  | zero =>
    intro j f hjk hf
    obtain ⟨f', rfl⟩ : ∃ f', f = f' + 1 := ⟨f - 1, by omega⟩
    have hj : j = k := by omega
    subst hj
    rw [collideGo_of_ex_false Hk]
  | succ n ih =>
    intro j f hjk hf
    obtain ⟨f', rfl⟩ : ∃ f', f = f' + 1 := ⟨f - 1, by omega⟩
    have hcur : ex (curAt orig j) = true := H j (by omega)
    rw [collideGo_of_ex_true hcur]
    have : variantOf orig (j + 1) = curAt orig (j + 1) := rfl
    rw [this]
    exact ih (j + 1) f' (by omega) (by omega)

/-- If every candidate name the loop can query during its `f` remaining
iterations exists, the loop exhausts its range and rejects. -/
theorem collideGo_exhausts {ex : String → Bool} {orig : String} :
    ∀ f j, (∀ m, j ≤ m → m < j + f → ex (curAt orig m) = true) →
      collideGo ex orig f (j + 1) (curAt orig j) = none := by
  intro f
  induction f with
  | zero => intro j _; rfl
  | succ f ih =>
    intro j H
    have hcur : ex (curAt orig j) = true := H j le_rfl (by omega)
    rw [collideGo_of_ex_true hcur]
    have : variantOf orig (j + 1) = curAt orig (j + 1) := rfl
    rw [this]
    exact ih (j + 1) (fun m h1 h2 => H m (by omega) (by omega))

theorem curAt_pos {orig : String} {k : Nat} (hk : 1 ≤ k) :
    curAt orig k = variantOf orig k := by
  obtain ⟨k', rfl⟩ : ∃ k', k = k' + 1 := ⟨k - 1, by omega⟩
  rfl

theorem toString_nat_eq_repr (n : Nat) : toString n = Nat.repr n := rfl

theorem variantOf_x_length (j : Nat) :
    (variantOf "x.ext" j).length = 6 + (Nat.repr j).length := by
  have h1 : ("x" : String).length = 1 := rfl
  have h2 : ("_" : String).length = 1 := rfl
  have h3 : (".ext" : String).length = 4 := rfl
  show ("x" ++ "_" ++ toString j ++ ".ext").length = 6 + (Nat.repr j).length
  rw [String.length_append, String.length_append, String.length_append,
    toString_nat_eq_repr, h1, h2, h3]
  omega

theorem variantOf_x_ne_10000 {j : Nat} (hj : j < 10000) :
    variantOf "x.ext" j ≠ variantOf "x.ext" 10000 := by
  intro h
  have hlen := congrArg String.length h
  rw [variantOf_x_length, variantOf_x_length] at hlen
  have h4 : (Nat.repr j).length ≤ 4 :=
    Nat.repr_length j 4 (by norm_num) (by omega)
  have h5 : (Nat.repr 10000).length = 5 := by decide
  omega

theorem exInbox10000_variant {j : Nat} (hj : j < 10000) :
    exInbox10000 (variantOf "x.ext" j) = true := by
  have := variantOf_x_ne_10000 hj
  simp [exInbox10000, this]

theorem exInbox10000_curAt {m : Nat} (hm : m < 10000) :
    exInbox10000 (curAt "x.ext" m) = true := by
  match m with
  | 0 =>
    have hne : variantOf "x.ext" 10000 ≠ "x.ext" := by
      intro h
      have hlen := congrArg String.length h
      rw [variantOf_x_length] at hlen
      have h5 : (Nat.repr 10000).length = 5 := by decide
      have h6 : ("x.ext" : String).length = 5 := rfl
      omega
    show (!(("x.ext" : String) == variantOf "x.ext" 10000)) = true
    simp only [Bool.not_eq_true', beq_eq_false_iff_ne, ne_eq]
    exact fun h => hne h.symm
  | m + 1 => exact exInbox10000_variant hm

/-- The code rejects the upload when 10000 colliding names exist. -/
theorem uploadStoredName_exInbox10000 :
    uploadStoredName exInbox10000 "x.ext" = none := by
  show collideGo exInbox10000 "x.ext" 10000 (0 + 1) (curAt "x.ext" 0) = none
  exact collideGo_exhausts 10000 0 (fun m _ h2 => exInbox10000_curAt (by omega))

/-- C3 counterexample: with `k = 10000` (inbox `x.ext, x_1.ext, …, x_9999.ext`,
`x_10000.ext` free), the loop `for i in range(1, 10001)` exhausts its range
without ever testing `x_10000.ext` and rejects the upload, so the stored
name is not `x_10000.ext` as the claim requires. -/
theorem C3_counterexample : ¬ uploadCollisionClaim := by
  intro h
  have h1 : exInbox10000 "x.ext" = true := exInbox10000_curAt (m := 0) (by omega)
  have h2 : ∀ j, j < 10000 → 1 ≤ j → exInbox10000 (variantOf "x.ext" j) = true :=
    fun j hj _ => exInbox10000_variant hj
  have h3 : exInbox10000 (variantOf "x.ext" 10000) = false := by
    simp [exInbox10000]
  have hres := h exInbox10000 "x.ext" 10000 (by omega) le_rfl h1 h2 h3
  rw [uploadStoredName_exInbox10000] at hres
  exact Option.noConfusion hres

/-- C3 (corrected): against an inbox holding exactly
`x.ext, x_1.ext, …, x_(k-1).ext`, `handle_upload` stores `x_k.ext` only for
`k ≤ 9999`; when `k = 10000` colliding names exist the upload is rejected
(the `for`-`else` branch fires) and nothing is stored (main.py:198-208). -/
theorem C3_upload_collision (ex : String → Bool) (orig : String) (k : Nat)
    (hk1 : 1 ≤ k) (hk2 : k ≤ 10000)
    (hex0 : ex orig = true)
    (hexlt : ∀ j, j < k → 1 ≤ j → ex (variantOf orig j) = true)
    (hexk : ex (variantOf orig k) = false) :
    (k ≤ 9999 → uploadStoredName ex orig = some (variantOf orig k)) ∧
    (k = 10000 → uploadStoredName ex orig = none) := by
  have Hcur : ∀ j, j < k → ex (curAt orig j) = true := by
    intro j hj
    match j with
    | 0 => exact hex0
    | j + 1 => exact hexlt (j + 1) hj (by omega)
  constructor
  · intro hk9
    have Hk : ex (curAt orig k) = false := by rw [curAt_pos hk1]; exact hexk
    have h := collideGo_stops Hcur Hk k 0 10000 (by omega) (by omega)
    rw [← curAt_pos hk1]
    exact h
  · intro hk
    subst hk
    exact collideGo_exhausts 10000 0 (fun m _ h2 => Hcur m (by omega))

/-- Witness for C3: uploading `x.ext` against `{x.ext, x_1.ext}` stores
`x_2.ext`. -/
theorem C3_witness : uploadStoredName exInbox2 "x.ext" = some (variantOf "x.ext" 2) :=
  (C3_upload_collision exInbox2 "x.ext" 2 (by omega) (by omega) (by decide)
    (by decide) (by decide)).1 (by omega)

/-- C6 counterexample: uploading `"a b.mp3"` into an empty inbox stores
`"a b.mp3"` verbatim (the space is not replaced by `_`):
`handle_upload` (main.py:176-231) never calls `sanitize_filename`. -/
theorem C6_counterexample : ¬ uploadSanitizedClaim := by
  intro h
  have hres := h (fun _ => false) "a b.mp3"
  rw [show uploadStoredName (fun _ => false) "a b.mp3" = some "a b.mp3" from by decide,
    show uploadStoredName (fun _ => false) (sanitize_filename "a b.mp3") = some "a_b.mp3"
      from by decide] at hres
  exact absurd (Option.some.inj hres) (by decide)

/-- C6 (corrected): `handle_upload` applies no sanitization at all — a
collision-free upload name is stored exactly as received, path components,
spaces, special characters and leading dots included (main.py:185,198-208;
`sanitize_filename` of src/security.py:21-42 has no caller on this path). -/
theorem C6_no_sanitization (ex : String → Bool) (orig : String) (h : ex orig = false) :
    uploadStoredName ex orig = some orig := by
  show collideGo ex orig (9999 + 1) 1 orig = some orig
  exact collideGo_of_ex_false h

/-- Witness for C6: the unsanitized name `"a b.mp3"` is stored verbatim. -/
theorem C6_witness : uploadStoredName (fun _ => false) "a b.mp3" = some "a b.mp3" :=
  C6_no_sanitization (fun _ => false) "a b.mp3" rfl

/-- C7 counterexample: uploading `a.mp3` into an empty tree writes
`language.txt` (with the default `"de"`, main.py:219-227), and `delete_file`
never removes it, so the round trip does not restore the pre-upload state. -/
theorem C7_counterexample : ¬ uploadDeleteClaim := by
  intro h
  have hfresh : freshName emptyUserFS "a.mp3" :=
    ⟨rfl, rfl, rfl, fun suf _ => rfl, rfl,
      fun f hf => absurd hf (List.not_mem_nil f), by decide, by decide⟩
  have hacc : (handleUpload emptyUserFS "a.mp3" "" "").2 = true := by decide
  have hres := h emptyUserFS "a.mp3" "" "" hfresh hacc
  have hlang := congrArg UserFS.language hres
  rw [show (deleteFile (handleUpload emptyUserFS "a.mp3" "" "").1 "a.mp3").language
      = some "de" from rfl] at hlang
  exact Option.noConfusion hlang

theorem uploadStoredName_fresh {ex : String → Bool} {orig : String} (h : ex orig = false) :
    uploadStoredName ex orig = some orig := by
  show collideGo ex orig (9999 + 1) 1 orig = some orig
  exact collideGo_of_ex_false h

/-- C7 (corrected): for a fresh name the upload is accepted, and deleting it
restores every part of the user's tree except the two config files:
`language.txt` is left holding the language the upload wrote (default
`"de"`), and `hotwords.txt` is left rewritten (non-empty vocabulary) or
deleted (empty vocabulary). -/
theorem C7_upload_delete (st : UserFS) (name vocab lang : String)
    (hfresh : freshName st name) :
    (handleUpload st name vocab lang).2 = true ∧
    ((deleteFile (handleUpload st name vocab lang).1 name).media = st.media ∧
     (deleteFile (handleUpload st name vocab lang).1 name).errFile = st.errFile ∧
     (deleteFile (handleUpload st name vocab lang).1 name).errTxt = st.errTxt ∧
     (deleteFile (handleUpload st name vocab lang).1 name).outFile = st.outFile ∧
     (deleteFile (handleUpload st name vocab lang).1 name).marker = st.marker ∧
     (deleteFile (handleUpload st name vocab lang).1 name).worker = st.worker ∧
     (deleteFile (handleUpload st name vocab lang).1 name).language
        = some (if lang == "" then "de" else lang) ∧
     (deleteFile (handleUpload st name vocab lang).1 name).hotwords
        = (if vocab == "" then none else some vocab)) := by
  obtain ⟨hmedia, herr, htxt, hout, hmark, hwork, hlang, hhot⟩ := hfresh
  have hlangB : (name == "language.txt") = false := beq_eq_false_iff_ne.mpr hlang
  have hhotB : (name == "hotwords.txt") = false := beq_eq_false_iff_ne.mpr hhot
  have hex : inboxHas
      { st with
        errFile := fun n => if n == name then false else st.errFile n
        errTxt := fun n => if n == name then false else st.errTxt n } name = false := by
    simp [inboxHas, hmedia, hlangB, hhotB]
  have hstored := uploadStoredName_fresh hex
  constructor
  · simp only [handleUpload, hstored]
  refine ⟨?_, ?_, ?_, ?_, ?_, ?_, ?_, ?_⟩ <;>
    simp only [handleUpload, hstored, deleteFile]
  · funext n
    by_cases hn : n = name
    · subst hn; simp [hmedia]
    · simp [beq_eq_false_iff_ne.mpr hn]
  · funext n
    by_cases hn : n = name
    · subst hn; simp [herr]
    · simp [beq_eq_false_iff_ne.mpr hn]
  · funext n
    by_cases hn : n = name
    · subst hn; simp [htxt]
    · simp [beq_eq_false_iff_ne.mpr hn]
  · funext n
    cases hn : outSuffixes.any (fun suf => n == name ++ suf) with
    | true =>
      obtain ⟨suf, hsuf, hbeq⟩ := List.any_eq_true.mp hn
      have : n = name ++ suf := beq_iff_eq.mp hbeq
      subst this
      simp [hn, hout suf hsuf]
    | false => simp [hn]
  · funext n
    by_cases hn : n = name
    · subst hn; simp [hmark]
    · simp [beq_eq_false_iff_ne.mpr hn]
  · exact List.filter_eq_self.mpr fun f hf => by simp [hwork f hf]
  · simp [hlangB]
  · simp [hhotB]

/-- Witness for C7: a concrete round trip on the empty tree with vocabulary
`"v"` and language `"en"`. -/
theorem C7_witness :
    (handleUpload emptyUserFS "a.mp3" "v" "en").2 = true ∧
    ((deleteFile (handleUpload emptyUserFS "a.mp3" "v" "en").1 "a.mp3").media
        = emptyUserFS.media ∧
     (deleteFile (handleUpload emptyUserFS "a.mp3" "v" "en").1 "a.mp3").errFile
        = emptyUserFS.errFile ∧
     (deleteFile (handleUpload emptyUserFS "a.mp3" "v" "en").1 "a.mp3").errTxt
        = emptyUserFS.errTxt ∧
     (deleteFile (handleUpload emptyUserFS "a.mp3" "v" "en").1 "a.mp3").outFile
        = emptyUserFS.outFile ∧
     (deleteFile (handleUpload emptyUserFS "a.mp3" "v" "en").1 "a.mp3").marker
        = emptyUserFS.marker ∧
     (deleteFile (handleUpload emptyUserFS "a.mp3" "v" "en").1 "a.mp3").worker
        = emptyUserFS.worker ∧
     (deleteFile (handleUpload emptyUserFS "a.mp3" "v" "en").1 "a.mp3").language
        = some (if "en" == "" then "de" else "en") ∧
     (deleteFile (handleUpload emptyUserFS "a.mp3" "v" "en").1 "a.mp3").hotwords
        = (if "v" == "" then none else some "v")) :=
  C7_upload_delete emptyUserFS "a.mp3" "v" "en"
    ⟨rfl, rfl, rfl, fun suf _ => rfl, rfl,
      fun f hf => absurd hf (List.not_mem_nil f), by decide, by decide⟩

/-- C4 counterexample: at age exactly 600 s the code's strict comparison
`time.time() - start_time > 600` (worker.py:81) is false, so the job is
skipped as "currently being processed" and nothing is moved to the error
directory. -/
theorem C4_counterexample : ¬ stuckThresholdClaim := by
  intro h
  have hres := h ⟨true, false, none, some (some 0)⟩ 0 600 rfl (by norm_num)
  rw [show scanStep ⟨true, false, none, some (some 0)⟩ false 600
      = (⟨true, false, none, some (some 0)⟩, false) from rfl] at hres
  exact Bool.noConfusion (congrArg (fun p => p.1.errFile) hres)

/-- C4 (corrected): a marker strictly older than 600 seconds is declared
stuck: the scan does not process the file, the input is moved to
`error/<user>/<file>` with the stuck diagnostic text, and the marker is
removed. -/
theorem C4_stuck_promotion (st : JobFiles) (start now : Int)
    (hm : st.marker = some (some start)) (hage : now - start > 600) :
    scanStep st false now = (reportErrorFS st stuckText, false) ∧
    (scanStep st false now).1.inFile = false ∧
    (scanStep st false now).1.errFile = true ∧
    (scanStep st false now).1.errTxt = some stuckText ∧
    (scanStep st false now).1.marker = none ∧
    (scanStep st false now).2 = false := by
  have h1 : scanStep st false now = (reportErrorFS st stuckText, false) := by
    unfold scanStep
    rw [if_neg (by simp), hm]
    simp only [if_pos hage]
  exact ⟨h1, by rw [h1]; rfl, by rw [h1]; rfl, by rw [h1]; rfl, by rw [h1]; rfl,
    by rw [h1]⟩

/-- Witness for C4: a job acquired at time 0 and scanned at time 601 is
promoted to the error directory. -/
theorem C4_witness :
    scanStep ⟨true, false, none, some (some 0)⟩ false 601
      = (reportErrorFS ⟨true, false, none, some (some 0)⟩ stuckText, false) ∧
    (scanStep ⟨true, false, none, some (some 0)⟩ false 601).1.inFile = false ∧
    (scanStep ⟨true, false, none, some (some 0)⟩ false 601).1.errFile = true ∧
    (scanStep ⟨true, false, none, some (some 0)⟩ false 601).1.errTxt = some stuckText ∧
    (scanStep ⟨true, false, none, some (some 0)⟩ false 601).1.marker = none ∧
    (scanStep ⟨true, false, none, some (some 0)⟩ false 601).2 = false :=
  C4_stuck_promotion ⟨true, false, none, some (some 0)⟩ 0 601 rfl (by norm_num)

/-- C5 counterexample: a heartbeat file whose encoded estimate is `0` makes
`listen` divide by zero — the computation is not well-defined, no report is
produced.  (The claim quantifies over every heartbeat file the listener
finds under `worker/<user>/`, whatever put it there.) -/
theorem C5_counterexample : ¬ progressListenerClaim := by
  intro h
  have hres := h 0 0 100
  rw [show listenOutcome 0 0 100 true = none by
    simp [listenOutcome, listenProgress]] at hres
  exact Option.noConfusion hres

/-- C5 (corrected): the code divides by the raw estimate with no
`max(1, ·)` guard and no lower clamp; when the estimate is at least 1 and
`now ≥ start` this coincides with the spec's clamped formula, but for
estimate 0 the computation raises instead of reporting. -/
theorem C5_progress (estimate start now : ℚ) (he : 1 ≤ estimate) (hs : start ≤ now) :
    listenOutcome estimate start now true
      = some (.report (specProgress estimate start now > 19/20)
          (specProgress estimate start now) (specRemaining estimate start now)) ∧
    listenOutcome 0 start now true = none := by
  constructor
  · have hne : estimate ≠ 0 := by intro h; rw [h] at he; norm_num at he
    have hnonneg : 0 ≤ (now - start) / estimate :=
      div_nonneg (by linarith) (by linarith)
    have hspec : specProgress estimate start now
        = min (39/40) ((now - start) / estimate) := by
      rw [specProgress, max_eq_right he, max_eq_right]
      exact le_min (by norm_num) hnonneg
    simp only [listenOutcome, listenProgress, if_neg hne, if_pos trivial, hspec]
    rfl
  · simp [listenOutcome, listenProgress]

/-- Witness for C5: a heartbeat with estimate 2 started at 0, observed at
time 1, reports progress 1/2 and remaining 1 s. -/
theorem C5_witness :
    listenOutcome 2 0 1 true
      = some (.report (specProgress 2 0 1 > 19/20)
          (specProgress 2 0 1) (specRemaining 2 0 1)) ∧
    listenOutcome 0 0 1 true = none :=
  C5_progress 2 0 1 (by norm_num) (by norm_num)

/-- In every reachable state the heartbeat list is empty and the per-user
worker directory does not exist: both heartbeat writes are dead code in the
staged source, and nothing else creates `worker/<user>/`. -/
theorem reachableW_empty (s : WorkerDirState) (h : ReachableW s) :
    s.heartbeats = [] ∧ s.dirExists = false := by
  induction h with
  | refl => exact ⟨rfl, rfl⟩
  | tail _ hstep ih =>
    cases hstep with
    | singleFileJob => exact ⟨rfl, rfl⟩
    | zipJobTracks => exact ih
    | zipJobNoTracks name => simpa [ih.2] using ih
    | staleRemove name => exact ⟨by rw [ih.1]; rfl, ih.2⟩

/-- C2 (confirmed): in every reachable state of the system at most one
heartbeat file exists under `worker/<user>/` — in fact none ever does.
The single-file heartbeat write is unreachable because the unawaited
`time_estimate` coroutine raises before it (worker.py:189, src/util.py:68),
the zip-with-tracks path raises the same way (worker.py:455), and the
zip-without-tracks write fails because no reachable path ever creates
`worker/<user>/` (worker.py:201 is past the raising call;
main.py:944-963 is uncalled). -/
theorem C2_heartbeat_invariant (s : WorkerDirState) (h : ReachableW s) :
    s.heartbeats.length ≤ 1 := by
  rw [(reachableW_empty s h).1]
  simp

/-- Witness for C2: the state reached by a single-file job followed by a
trackless zip job satisfies the bound. -/
theorem C2_witness : (⟨[], false⟩ : WorkerDirState).heartbeats.length ≤ 1 :=
  C2_heartbeat_invariant ⟨[], false⟩
    (Relation.ReflTransGen.tail
      (Relation.ReflTransGen.single (WStep.singleFileJob ⟨[], false⟩))
      (WStep.zipJobNoTracks ⟨[], false⟩ "0_0_a.zip"))

theorem keyLe_refl (e : InEntry) : keyLe e e := Or.inr ⟨rfl, le_refl _⟩

/-- C1 counterexample: the loop filter never excludes `.processing` files
themselves, so with a live marker present the worker's next job is the
marker file `a.mp3.processing` (mtime 10) — an ineligible file — rather
than the eligible `b.wav`. -/
theorem C1_counterexample : ¬ globalFifoClaim := by
  intro h
  obtain ⟨e, hnext, helig, -⟩ :=
    h fsCex ⟨⟨"u", "b.wav", 20⟩, by decide, by decide⟩
  rw [show nextJob fsCex = some ⟨"u", "a.mp3.processing", 10⟩ from by decide] at hnext
  obtain rfl := Option.some.inj hnext
  exact absurd helig (by decide)

theorem mem_actualQueue {fs : ScanFS} {e : InEntry} :
    e ∈ actualQueue fs ↔ e ∈ fs.entries ∧ queueCandidate fs e = true := by
  unfold actualQueue oldestFiles
  rw [List.mem_filter, (List.perm_insertionSort keyLe _).mem_iff, List.mem_filter]
  constructor
  · rintro ⟨⟨h1, h2⟩, h3⟩
    exact ⟨h1, by simp only [queueCandidate, Bool.and_eq_true]; exact ⟨h2, h3⟩⟩
  · rintro ⟨h1, h2⟩
    simp only [queueCandidate, Bool.and_eq_true] at h2
    exact ⟨⟨h1, h2.1⟩, h2.2⟩

/-- C1 (corrected): among the files the scan actually considers — regular
inbox files whose basename contains a dot, other than the two config files,
with no outbox HTML and no parseable `.processing` sibling, where
`.processing` marker files themselves are considered — the worker processes
the one least in `(mtime, path)` order.  (On snapshots with stuck or
unreadable markers the scan also mutates the tree while iterating.) -/
theorem C1_fifo (fs : ScanFS) (e : InEntry) (rest : List InEntry)
    (_hnb : noBadMarkers fs) (hq : actualQueue fs = e :: rest) :
    nextJob fs = some e ∧
    (e ∈ fs.entries ∧ queueCandidate fs e = true) ∧
    ∀ e' ∈ fs.entries, queueCandidate fs e' = true → keyLe e e' := by
  have hsorted : List.Sorted keyLe (actualQueue fs) :=
    (List.sorted_insertionSort keyLe _).filter _
  rw [hq] at hsorted
  have hmin : ∀ b ∈ rest, keyLe e b := List.rel_of_sorted_cons hsorted
  refine ⟨by rw [nextJob, hq]; rfl, ?_, ?_⟩
  · exact mem_actualQueue.mp (hq ▸ List.mem_cons_self e rest)
  · intro e' he' hc
    have : e' ∈ actualQueue fs := mem_actualQueue.mpr ⟨he', hc⟩
    rw [hq] at this
    rcases List.mem_cons.mp this with rfl | hmem
    · exact keyLe_refl e'
    · exact hmin e' hmem

/-- Witness for C1: on `fsWitness` the queue is `[a.mp3, b.wav]` and
`a.mp3` (mtime 5) is keyLe-least among the candidates. -/
theorem C1_witness :
    nextJob fsWitness = some ⟨"u", "a.mp3", 5⟩ ∧
    ((⟨"u", "a.mp3", 5⟩ : InEntry) ∈ fsWitness.entries ∧
      queueCandidate fsWitness ⟨"u", "a.mp3", 5⟩ = true) ∧
    ∀ e' ∈ fsWitness.entries, queueCandidate fsWitness e' = true →
      keyLe ⟨"u", "a.mp3", 5⟩ e' :=
  C1_fifo fsWitness ⟨"u", "a.mp3", 5⟩ [⟨"v", "b.wav", 7⟩]
    ⟨fun _ _ _ h => Option.noConfusion h, fun _ _ h => Option.noConfusion h⟩
    (by decide)

/-- C10 (confirmed): an inbox file whose basename contains no dot is never
returned by `oldest_files` (the `fnmatch "*.*"` filter, worker.py:149),
hence never enters the queue and is never the next job — it stays queued
forever even when eligible. -/
theorem C10_dotless_never_scanned (fs : ScanFS) (e : InEntry)
    (h : hasDot e.name = false) :
    e ∉ oldestFiles fs.entries ∧ e ∉ actualQueue fs ∧ nextJob fs ≠ some e := by
  have h1 : e ∉ oldestFiles fs.entries := by
    intro hmem
    have hm2 := ((List.perm_insertionSort keyLe _).mem_iff).mp hmem
    have hm3 := (List.mem_filter.mp hm2).2
    rw [h] at hm3
    exact Bool.noConfusion hm3
  have h2 : e ∉ actualQueue fs := fun hmem => h1 (List.mem_of_mem_filter hmem)
  refine ⟨h1, h2, fun hn => h2 ?_⟩
  cases hqq : actualQueue fs with
  | nil => rw [nextJob, hqq] at hn; exact Option.noConfusion hn
  | cons a t =>
    rw [nextJob, hqq] at hn
    obtain rfl := Option.some.inj hn
    exact List.mem_cons_self a t

/-- Witness for C10: the dotless name `noext` is not scanned even though its
entry is present and eligible. -/
theorem C10_witness :
    (⟨"u", "noext", 5⟩ : InEntry) ∉ oldestFiles fsWitness.entries ∧
    (⟨"u", "noext", 5⟩ : InEntry) ∉ actualQueue fsWitness ∧
    nextJob fsWitness ≠ some ⟨"u", "noext", 5⟩ :=
  C10_dotless_never_scanned fsWitness ⟨"u", "noext", 5⟩ (by decide)

/-- C8 (confirmed): download preparation is idempotent — the second run
consumes no update (the first already did), reads back the same `.html` it
left, and therefore recomputes a byte-identical `.htmlfinal`; in fact the
whole state is a fixed point. -/
theorem C8_prepare_idempotent (b64 : String → String) (st : DlState) :
    prepareDownloadSync b64 (prepareDownloadSync b64 st) = prepareDownloadSync b64 st := by
  cases st with
  | mk html update mp4 final => cases update <;> rfl

/-- C9 counterexample: the janitor evaluates the user at the first root
where its directory appears (`in/`, stale) and removes all four trees, even
though the `out/` tree was modified right now — the decision is not taken
across all four roots. -/
theorem C9_counterexample : ¬ janitorClaim := by
  intro h
  have hmem : "u" ∈ cleanupRemoved fsJanCex 1000000 := by decide
  have hlt := (h fsJanCex 1000000 "u" hmem).2
  rw [show (fourRootLatest fsJanCex "u" : Int) = 1000000 from by decide] at hlt
  norm_num at hlt

theorem janScanUsers_mem {fs : JanFS} {thr : Int} {r : JRoot} {u : String} :
    ∀ (us : List String) (proc rem : List String),
      u ∈ (janScanUsers fs thr r us (proc, rem)).2 →
      u ∈ rem ∨ (u ∈ us ∧ u ≠ "local" ∧ fs.isDir r u = true ∧
        (latestTime fs r u : Int) < thr) := by
  intro us
  induction us with
  | nil => intro proc rem h; exact Or.inl h
  | cons u' rest ih =>
    intro proc rem h
    rw [janScanUsers] at h
    by_cases h1 : (proc.contains u' || u' == "local") = true
    · rw [if_pos h1] at h
      rcases ih proc rem h with hl | ⟨hm, hr⟩
      · exact Or.inl hl
      · exact Or.inr ⟨List.mem_cons_of_mem u' hm, hr⟩
    · rw [if_neg h1] at h
      have hnl : u' ≠ "local" := by
        intro hequ
        apply h1
        rw [hequ]
        simp
      by_cases h2 : (!(fs.isDir r u')) = true
      · rw [if_pos h2] at h
        rcases ih proc rem h with hl | ⟨hm, hr⟩
        · exact Or.inl hl
        · exact Or.inr ⟨List.mem_cons_of_mem u' hm, hr⟩
      · rw [if_neg h2] at h
        have hdir : fs.isDir r u' = true := by simpa using h2
        by_cases h3 : (latestTime fs r u' : Int) < thr
        · rw [if_pos h3] at h
          rcases ih _ _ h with hl | ⟨hm, hr⟩
          · rcases List.mem_cons.mp hl with heq | hl2
            · subst heq
              exact Or.inr ⟨List.mem_cons_self _ rest, hnl, hdir, h3⟩
            · exact Or.inl hl2
          · exact Or.inr ⟨List.mem_cons_of_mem u' hm, hr⟩
        · rw [if_neg h3] at h
          rcases ih _ _ h with hl | ⟨hm, hr⟩
          · exact Or.inl hl
          · exact Or.inr ⟨List.mem_cons_of_mem u' hm, hr⟩

theorem cleanup_mem_aux {fs : JanFS} {thr : Int} {u : String} :
    ∀ (roots : List JRoot) (acc : List String × List String),
      u ∈ (roots.foldl (fun a r => janScanUsers fs thr r (fs.users r) a) acc).2 →
      u ∈ acc.2 ∨ ∃ r ∈ roots, u ∈ fs.users r ∧ u ≠ "local" ∧
        fs.isDir r u = true ∧ (latestTime fs r u : Int) < thr := by
  intro roots
  induction roots with
  | nil => intro acc h; exact Or.inl h
  | cons r roots ih =>
    intro acc h
    rw [List.foldl_cons] at h
    rcases ih _ h with hl | ⟨r', hr', hrest⟩
    · obtain ⟨proc, rem⟩ := acc
      rcases janScanUsers_mem (fs.users r) proc rem hl with hl2 | hcond
      · exact Or.inl hl2
      · exact Or.inr ⟨r, List.mem_cons_self r roots, hcond⟩
    · exact Or.inr ⟨r', List.mem_cons_of_mem r hr', hrest⟩

/-- C9 (corrected): a removed user is never `local`, and the janitor's
decision rests on the activity time computed from the single root where it
first finds the user's directory — not across all four roots. -/
theorem C9_janitor (fs : JanFS) (now : Int) (u : String)
    (h : u ∈ cleanupRemoved fs now) :
    u ≠ "local" ∧ ∃ r, u ∈ fs.users r ∧ fs.isDir r u = true ∧
      (latestTime fs r u : Int) < now - 7 * 86400 := by
  rcases cleanup_mem_aux rootOrder ([], []) h with hl | ⟨r, _, hu, hnl, hdir, hlt⟩
  · exact absurd hl (List.not_mem_nil u)
  · exact ⟨hnl, r, hu, hdir, hlt⟩

/-- Witness for C9: the idle user `v` is removed, is not `local`, and some
root shows it idle beyond the threshold. -/
theorem C9_witness :
    "v" ≠ "local" ∧ ∃ r, "v" ∈ fsJanW.users r ∧ fsJanW.isDir r "v" = true ∧
      (latestTime fsJanW r "v" : Int) < 1000000 - 7 * 86400 :=
  C9_janitor fsJanW 1000000 "v" (by decide)

end VoiceScript
